import Mathlib

/-!
Shallow embedding of the zbox transactional storage engine core:
the file-backend storage (`FileStorage` in src/volume/storage/file/file.rs),
the transaction manager (`TxMgr` in src/trans/txmgr.rs) and the alignment
helpers (src/base/utils.rs).  Machine integers are modelled as `Nat` with
explicit `% 2 ^ 64` where two's-complement wrap matters; fallible code
returns `Except`; `HashMap`s are modelled as functions to `Option`;
Rust `assert!` failures are a distinct `assertFail` outcome.
-/

namespace Zbox

set_option linter.unusedVariables false

/-- Block size constant `BLK_SIZE = 8192` from the sector manager. -/
def BLK_SIZE : Nat := 8192

/-- Maximum snapshot count kept by the file storage. -/
def MAX_SNAPSHOT_CNT : Nat := 2

/-- Model error type: the subset of `Error` (src/error.rs) reached by the
embedded core, plus `assertFail` marking a Rust `assert!`/`assert_eq!` trap. -/
inductive Error where
  | corrupted
  | opened
  | noEntity
  | inTrans
  | noTrans
  | uncompleted
  | assertFail
  deriving DecidableEq, Repr

/-- `align_ceil` from src/base/utils.rs:
`if x == 0 { return size; } x + (-(x as isize) & (size as isize - 1)) as usize`.
The two's-complement negation on 64-bit `usize` is `(2^64 - x) % 2^64`. -/
def align_ceil (x size : Nat) : Nat :=
  if x = 0 then size
  else x + (((2 ^ 64 - x) % 2 ^ 64) &&& (size - 1))

/-- `Span { begin, end, offset }`: half-open block range with a byte offset
in the first block (data model from the spec; the span module is not under
src/). -/
structure Span where
  begin : Nat
  end_ : Nat
  offset : Nat
  deriving DecidableEq, Repr

/-- `Space { txid, spans, byte_len }`: ordered list of spans forming one
logical byte buffer (data model from the spec). -/
structure Space where
  txid : Nat
  spans : List Span
  byte_len : Nat
  deriving DecidableEq, Repr

/-- Transaction session status (`TxStatus` in file.rs). -/
inductive TxStatus where
  | init
  | started
  | prepare
  | recycleSt
  | committed
  | dispose
  deriving DecidableEq, Repr

/-- Transaction session (`Session` in file.rs).  The emap overlay is a map
from entity id to `Space`; `deleted` is the set of deleted entity ids;
`recycle` collects spaces displaced during the session.  Path/crypto fields
are environment configuration and are omitted. -/
structure Session where
  seq : Nat
  txid : Nat
  status : TxStatus
  wmark : Nat
  emap : Nat → Option Space
  deleted : List Nat
  recycle : List Space

/-- `Session::alloc`: allocate `size` bytes as whole blocks from the session
watermark.  `Span::new(begin, wmark, 0).into_span_list(size)` is modelled
from the spec as the singleton span list carrying byte length `size`. -/
def Session.alloc (s : Session) (size : Nat) : Space × Session :=
  let blk_cnt := align_ceil size BLK_SIZE / BLK_SIZE
  let b := s.wmark
  let w := s.wmark + blk_cnt
  ({ txid := s.txid, spans := [{ begin := b, end_ := w, offset := 0 }],
     byte_len := size },
   { s with wmark := w })

/-- Helper: `align_ceil` at a power-of-two size lands on the least multiple
of `size` at or above `x`, for `0 < x < 2 ^ 64`. -/
theorem align_ceil_bounds (x k : Nat) (hk : k ≤ 64) (hx0 : 0 < x)
    (hx : x < 2 ^ 64) :
    2 ^ k ∣ align_ceil x (2 ^ k) ∧ x ≤ align_ceil x (2 ^ k) ∧
      align_ceil x (2 ^ k) < x + 2 ^ k := by
  have hxne : x ≠ 0 := Nat.pos_iff_ne_zero.mp hx0
  unfold align_ceil
  rw [if_neg hxne]
  have hmod64 : (2 ^ 64 - x) % 2 ^ 64 = 2 ^ 64 - x := by
    have : 2 ^ 64 - x < 2 ^ 64 := by omega
    exact Nat.mod_eq_of_lt this
  rw [hmod64, Nat.and_pow_two_sub_one_eq_mod]
  set a := (2 ^ 64 - x) % 2 ^ k with ha
  have hklt : (0:Nat) < 2 ^ k := Nat.pos_pow_of_pos k (by norm_num)
  have halt : a < 2 ^ k := Nat.mod_lt _ hklt
  have hdvd64 : 2 ^ k ∣ 2 ^ 64 := Nat.pow_dvd_pow 2 hk
  -- (2 ^ 64 - x) + x = 2 ^ 64 is divisible by 2 ^ k, hence a + x ≡ 0
  have hsum : ((2 ^ 64 - x) + x) % 2 ^ k = 0 := by
    have h64 : (2 ^ 64 - x) + x = 2 ^ 64 := by omega
    rw [h64]
    exact Nat.mod_eq_zero_of_dvd hdvd64
  have hax : (a + x) % 2 ^ k = 0 := by
    calc (a + x) % 2 ^ k
        = ((2 ^ 64 - x) % 2 ^ k + x) % 2 ^ k := by rw [ha]
      _ = ((2 ^ 64 - x) + x) % 2 ^ k := Nat.mod_add_mod _ _ _
      _ = 0 := hsum
  refine ⟨?_, Nat.le_add_right _ _, by omega⟩
  have : (x + a) % 2 ^ k = 0 := by rw [Nat.add_comm]; exact hax
  exact Nat.dvd_of_mod_eq_zero this

/-- Byte capacity of a span: the blocks it covers minus the initial offset. -/
def spanCap (s : Span) : Nat := (s.end_ - s.begin) * BLK_SIZE - s.offset

/-- Modelled from the spec: the sector manager resolves byte position `i` of
an ordered span list to a flat block-device address (spec section 4.1; the
sector module is not under src/). -/
def spansAddr : List Span → Nat → Nat
  | [], _ => 0
  | s :: rest, i =>
    if i < spanCap s then s.begin * BLK_SIZE + s.offset + i
    else spansAddr rest (i - spanCap s)

/-- Device addresses of bytes `offset ..< offset + len` of a space. -/
def spaceAddrs (sp : Space) (offset len : Nat) : List Nat :=
  (List.range len).map (fun i => spansAddr sp.spans (offset + i))

/-- Write a list of byte values at a list of device addresses, in order. -/
def writeBytes : (Nat → Nat) → List Nat → List Nat → (Nat → Nat)
  | disk, a :: rest, v :: vs =>
    writeBytes (fun x => if x = a then v else disk x) rest vs
  | disk, _, _ => disk

/-- Read the byte values at a list of device addresses. -/
def readBytes (disk : Nat → Nat) (addrs : List Nat) : List Nat :=
  addrs.map disk

/-- Modelled from the spec: `SectorMgr::write` puts `buf` at byte positions
`offset ..` of `space` (spec section 4.1). -/
def secWrite (disk : Nat → Nat) (buf : List Nat) (sp : Space)
    (offset : Nat) : Nat → Nat :=
  writeBytes disk (spaceAddrs sp offset buf.length) buf

/-- Modelled from the spec: `SectorMgr::read` fills the destination buffer
from byte positions `offset ..` of `space`, bounded by the space's byte
length (spec section 4.1). -/
def secRead (disk : Nat → Nat) (sp : Space) (offset bufLen : Nat) :
    List Nat :=
  readBytes disk (spaceAddrs sp offset (min bufLen (sp.byte_len - offset)))

/-- Modelled from the spec: `Emap::merge(overlay, deleted)` — for each
overlay entry replace base, then for each deleted id remove base (spec
section 4.2; the emap module is not under src/). -/
def emapMerge (base overlay : Nat → Option Space) (deleted : List Nat) :
    Nat → Option Space :=
  fun id =>
    if id ∈ deleted then none
    else
      match overlay id with
      | some sp => some sp
      | none => base id

/-- Snapshot record (`Snapshot` in file.rs): sequence, txid, allocation
watermark and the recycle list taken from the committing session. -/
structure Snapshot where
  seq : Nat
  txid : Nat
  wmark : Nat
  recycle : List Space
  deriving DecidableEq, Repr

/-- `Session::take_snapshot`. -/
def Session.take_snapshot (s : Session) : Snapshot :=
  { seq := s.seq, txid := s.txid, wmark := s.wmark, recycle := s.recycle }

/-- The file storage (`FileStorage` in file.rs).  On-disk artifacts are
tracked so that dispose/cleanup are observable: `emapFiles` / `snapshotFiles`
record which txids have an emap / snapshot file, `sessionFiles` maps a txid
to its session status file.  `freePool` records the spaces the sector
manager has been handed back via `recycle`.  `disk` is the flat block
device content. -/
structure FileStorage where
  seq : Nat
  emap : Nat → Option Space
  sessions : Nat → Option Session
  snapshots : List Snapshot
  disk : Nat → Nat
  freePool : List Space
  emapFiles : Nat → Bool
  snapshotFiles : Nat → Bool
  sessionFiles : Nat → Option TxStatus

/-- Renaming a session status file changes the status of an existing file
and does nothing when no file for that txid exists. -/
def renameSessionFile (files : Nat → Option TxStatus) (txid : Nat)
    (st : TxStatus) : Nat → Option TxStatus :=
  fun t => if t = txid then (files t).map (fun _ => st) else files t

/-- One iteration body of `FileStorage::recycle`: dispose the retired
snapshot's session file, hand its recycle spaces back to the sector manager
and delete its emap, snapshot and session artifacts.  The intermediate
`.dispose` rename is immediately followed by `Session::cleanup`, so the net
effect on the session file is removal. -/
def retireSnapshot (s : Snapshot) (fs : FileStorage) : FileStorage :=
  { fs with
    sessionFiles := fun t => if t = s.txid then none else fs.sessionFiles t,
    freePool := fs.freePool ++ s.recycle,
    emapFiles := fun t => if t = s.txid then false else fs.emapFiles t,
    snapshotFiles := fun t => if t = s.txid then false
                              else fs.snapshotFiles t }

/-- The `while snapshots.len() > MAX_SNAPSHOT_CNT` loop of
`FileStorage::recycle`, retiring the front (oldest) snapshot each round. -/
def recycleList : List Snapshot → FileStorage → List Snapshot × FileStorage
  | [], fs => ([], fs)
  | s :: rest, fs =>
    if rest.length + 1 > MAX_SNAPSHOT_CNT then
      recycleList rest (retireSnapshot s fs)
    else (s :: rest, fs)

/-- `FileStorage::recycle`. -/
def FileStorage.recycle (fs : FileStorage) : FileStorage :=
  let p := recycleList fs.snapshots fs
  { p.2 with snapshots := p.1 }

/-- The current space consulted by `FileStorage::write`: the session overlay
emap first, the base emap as fallback. -/
def currentSpace (fs : FileStorage) (sess : Session) (id : Nat) :
    Option Space :=
  match sess.emap id with
  | some s => some s
  | none => fs.emap id

/-- `FileStorage::write` (file.rs lines 663-728).  `offset == 0` allocates a
fresh space (pushing any displaced space onto the session recycle list);
otherwise the call asserts `offset == curr.len()` and `txid == curr.txid`
and appends.  Cache invalidation has no observable effect here because the
model reads and writes the device directly. -/
def FileStorage.write (fs : FileStorage) (id offset : Nat) (buf : List Nat)
    (txid : Nat) : Except Error (Nat × FileStorage) :=
  match fs.sessions txid with
  | none => .error .noTrans
  | some sess =>
    let buf_len := buf.length
    let res : Except Error (Space × Session) :=
      match currentSpace fs sess id with
      | some curr_space =>
        if offset = 0 then
          -- overwrite existing entity, discard the old space
          let sess1 :=
            { sess with recycle := sess.recycle ++ [curr_space] }
          .ok (sess1.alloc buf_len)
        else
          -- appending to the existing entity
          if offset ≠ curr_space.byte_len then .error .assertFail
          else if txid ≠ curr_space.txid then .error .assertFail
          else
            let end_offset := offset + buf_len
            let ubound := align_ceil offset BLK_SIZE
            let align_len := ubound - offset
            if end_offset ≤ ubound then
              -- the last block has enough space to hold the data
              .ok ({ curr_space with byte_len := end_offset }, sess)
            else
              -- not enough space, need to alloc extra space
              let p := sess.alloc (buf_len - align_len)
              .ok ({ curr_space with
                       spans := curr_space.spans ++ p.1.spans,
                       byte_len := curr_space.byte_len + align_len
                                     + p.1.byte_len },
                   p.2)
      | none =>
        -- new entity
        if offset ≠ 0 then .error .assertFail
        else .ok (sess.alloc buf_len)
    match res with
    | .error e => .error e
    | .ok (space, sess2) =>
      let disk1 := secWrite fs.disk buf space offset
      let sess3 :=
        { sess2 with
          emap := fun k => if k = id then some space else sess2.emap k }
      .ok (buf_len,
           { fs with
             disk := disk1,
             sessions := fun t => if t = txid then some sess3
                                  else fs.sessions t })

/-- The base-emap branch of `FileStorage::read`: consult the base emap, a
miss is a not-found error carrying `NoEntity`. -/
def FileStorage.readBase (fs : FileStorage) (id offset bufLen : Nat) :
    Except Error (List Nat) :=
  match fs.emap id with
  | some space => .ok (secRead fs.disk space offset bufLen)
  | none => .error .noEntity

/-- `FileStorage::read` (file.rs lines 640-661).  A live txid consults the
session overlay emap first; an empty txid (0) goes straight to the base
emap. -/
def FileStorage.read (fs : FileStorage) (id offset bufLen txid : Nat) :
    Except Error (List Nat) :=
  if txid ≠ 0 then
    match fs.sessions txid with
    | none => .error .noTrans
    | some sess =>
      match sess.emap id with
      | some space => .ok (secRead fs.disk space offset bufLen)
      | none => fs.readBase id offset bufLen
  else fs.readBase id offset bufLen

/-- `FileStorage::commit` success path (file.rs lines 453-481): switch the
session to prepare, merge the session emap overlay into the base emap
(persisting the merged emap file for this txid), take and persist a
snapshot, switch to recycle and trim retired snapshots, then mark the
session committed and drop it from the session map. -/
def commitBody (fs : FileStorage) (sess : Session) (txid : Nat) :
    FileStorage :=
  let files1 := renameSessionFile fs.sessionFiles txid .prepare
  let emap1 := emapMerge fs.emap sess.emap sess.deleted
  let emapFiles1 := fun t => if t = txid then true else fs.emapFiles t
  let snap := sess.take_snapshot
  let snapFiles1 := fun t => if t = txid then true else fs.snapshotFiles t
  let fs1 :=
    { fs with
      emap := emap1,
      emapFiles := emapFiles1,
      snapshotFiles := snapFiles1,
      snapshots := fs.snapshots ++ [snap],
      sessionFiles := renameSessionFile files1 txid .recycleSt }
  let fs2 := fs1.recycle
  { fs2 with
    sessionFiles := renameSessionFile fs2.sessionFiles txid .committed,
    sessions := fun t => if t = txid then none else fs2.sessions t }

/-- `FileStorage::commit` dispatch: the only failure is a missing session
(`NoTrans`); the success path is `commitBody`. -/
def FileStorage.commit (fs : FileStorage) (txid : Nat) :
    Except Error FileStorage :=
  match fs.sessions txid with
  | none => .error .noTrans
  | some sess => .ok (commitBody fs sess txid)

/-- `FileStorage::lock_storage` (file.rs lines 378-395): if the advisory
lock file for the volume already exists the call fails with `Opened` and
changes nothing; otherwise it creates the lock file with exclusive-create
semantics.  The set of existing lock files is a list of volume ids. -/
def lock_storage (locks : List Nat) (volume_id : Nat) :
    Except Error Unit × List Nat :=
  if volume_id ∈ locks then (.error .opened, locks)
  else (.ok (), volume_id :: locks)

/-- `Drop for FileStorage` (file.rs lines 796-809): remove the lock file. -/
def drop_storage (locks : List Nat) (volume_id : Nat) : List Nat :=
  locks.erase volume_id

/-- Session history item (`SessionHistItem` in file.rs), parsed from a
`session/<txid>-<seq>.<status>` file name. -/
structure SessionHistItem where
  seq : Nat
  txid : Nat
  status : TxStatus
  deriving DecidableEq, Repr

/-- `SessionHistItem::is_completed`. -/
def SessionHistItem.is_completed (h : SessionHistItem) : Bool :=
  h.status = TxStatus.committed || h.status = TxStatus.dispose

/-- The sanity-check counting loop of `FileStorage::open` (file.rs lines
574-584): count completed and non-completed items and track the least
index of a non-completed item, over the seq-sorted history. -/
def openScan : List SessionHistItem → Nat → Nat × Nat × Nat → Nat × Nat × Nat
  | [], _, acc => acc
  | h :: rest, i, (c, u, p) =>
    if h.is_completed then openScan rest (i + 1) (c + 1, u, p)
    else openScan rest (i + 1) (c, u + 1, min i p)

/-- Txid of the last completed history item (`hist.iter().filter(...)
.last().unwrap()` in file.rs line 622; 0 stands for the unreachable
unwrap of an empty filter). -/
def lastCompletedTxid (hist : List SessionHistItem) : Nat :=
  match (hist.filter (fun h => h.is_completed)).getLast? with
  | some h => h.txid
  | none => 0

/-- The history-validity portion of `FileStorage::open` (file.rs lines
567-589 and 621-637), applied to the seq-sorted session history: an empty
history opens as the empty txid; otherwise the history is `Corrupted` when
there is no completed session, more than one non-completed session, or a
non-completed session before the last position; a valid history opens as
the txid of the last completed session. -/
def open_check (hist : List SessionHistItem) : Except Error Nat :=
  if hist.isEmpty then .ok 0
  else
    let scan := openScan hist 0 (0, 0, hist.length - 1)
    if scan.1 = 0 ∨ scan.2.1 > 1 ∨ scan.2.2 ≠ hist.length - 1 then
      .error .corrupted
    else .ok (lastCompletedTxid hist)

/-- Transaction manager state (`TxMgr` in src/trans/txmgr.rs): the presence
map of live transactions, the entity-to-transaction registration map, and
the per-thread current-txid slot.  The WAL queue, volume and allocator are
external collaborators whose fallible operations enter the model as
`Except` outcome parameters. -/
structure TxMgrSt where
  txs : Nat → Bool
  ents : Nat → Option Nat
  curTxid : Option Nat

/-- `TxMgr::remove_trans`: drop the transaction and every entity
registration pointing at it. -/
def remove_trans (tm : TxMgrSt) (txid : Nat) : TxMgrSt :=
  { tm with
    txs := fun t => if t = txid then false else tm.txs t,
    ents := fun id =>
      match tm.ents id with
      | some v => if v = txid then none else some v
      | none => none }

/-- `TxMgr::abort_trans` (txmgr.rs lines 218-240): write the WAL abort
records and drive the backend abort — their combined outcome is
`abortResult` and is only logged — then unconditionally remove the
transaction and clear the thread-local txid.  The function returns no
result. -/
def abort_trans (tm : TxMgrSt) (txid : Nat)
    (abortResult : Except Error Unit) : TxMgrSt :=
  { remove_trans tm txid with curTxid := none }

/-- `TxMgr::commit_trans` (txmgr.rs lines 184-215): drive the COW commit,
the WAL `end_trans` append and the WAL save — their combined outcome is
`commitResult`.  On success remove the transaction and clear the thread
txid; on failure fall through to `abort_trans` and return the original
commit error. -/
def commit_trans (tm : TxMgrSt) (txid : Nat)
    (commitResult abortResult : Except Error Unit) :
    Except Error Unit × TxMgrSt :=
  match commitResult with
  | .ok _ => (.ok (), { remove_trans tm txid with curTxid := none })
  | .error e => (.error e, abort_trans tm txid abortResult)

/-- `TxMgr::add_to_trans` (txmgr.rs lines 156-175): `ents.entry(id)
.or_insert(txid)` registers the entity to `txid` when unregistered; a
registration to a different txid fails with `InTrans`.  `addResult` is the
outcome of `tx.add_entity` on the found transaction. -/
def add_to_trans (tm : TxMgrSt) (id txid : Nat)
    (addResult : Except Error Unit) : Except Error Unit × TxMgrSt :=
  let ents1 : Nat → Option Nat :=
    match tm.ents id with
    | some _ => tm.ents
    | none => fun k => if k = id then some txid else tm.ents k
  let cur := match tm.ents id with
    | some v => v
    | none => txid
  if cur ≠ txid then (.error .inTrans, { tm with ents := ents1 })
  else if tm.txs txid = false then (.error .noTrans, { tm with ents := ents1 })
  else (addResult, { tm with ents := ents1 })

/-- Every entity registration left by `remove_trans` points away from the
removed txid. -/
theorem remove_trans_ents (tm : TxMgrSt) (txid id t : Nat)
    (h : (remove_trans tm txid).ents id = some t) : t ≠ txid := by
  unfold remove_trans at h
  simp only at h
  cases hv : tm.ents id with
  | none => rw [hv] at h; exact absurd h (by simp)
  | some v =>
    rw [hv] at h
    by_cases hvt : v = txid
    · simp [hvt] at h
    · simp [hvt] at h
      omega

/-- Claim C10: for a power-of-two `size`, `align_ceil(x, size)` is the least
multiple of `size` at or above `x` whenever `0 < x < 2^64`, but
`align_ceil(0, size) = size`, so `Session::alloc(0)` allocates a one-block
span rather than an empty space. -/
theorem c10_align_ceil_alloc (x k : Nat) (sess : Session)
    (hx0 : 0 < x) (hx : x < 2 ^ 64) (hk : k ≤ 64) :
    (2 ^ k ∣ align_ceil x (2 ^ k) ∧ x ≤ align_ceil x (2 ^ k) ∧
      align_ceil x (2 ^ k) < x + 2 ^ k) ∧
    align_ceil 0 (2 ^ k) = 2 ^ k ∧
    (sess.alloc 0).1 =
      { txid := sess.txid,
        spans := [{ begin := sess.wmark, end_ := sess.wmark + 1,
                    offset := 0 }],
        byte_len := 0 } := by
  refine ⟨align_ceil_bounds x k hk hx0 hx, by simp [align_ceil], ?_⟩
  simp [Session.alloc, align_ceil, BLK_SIZE]

/-- Witness for C10 at `x = 5`, `size = 2^13 = BLK_SIZE`. -/
theorem c10_align_ceil_alloc_witness :
    0 < 5 ∧ 5 < 2 ^ 64 ∧ 13 ≤ 64 ∧
    ((2 ^ 13 ∣ align_ceil 5 (2 ^ 13) ∧ 5 ≤ align_ceil 5 (2 ^ 13) ∧
       align_ceil 5 (2 ^ 13) < 5 + 2 ^ 13) ∧
     align_ceil 0 (2 ^ 13) = 2 ^ 13 ∧
     (Session.alloc { seq := 0, txid := 3, status := .started, wmark := 4,
                      emap := fun _ => none, deleted := [],
                      recycle := [] } 0).1 =
       { txid := 3, spans := [{ begin := 4, end_ := 5, offset := 0 }],
         byte_len := 0 }) :=
  ⟨by norm_num, by norm_num, by norm_num,
   c10_align_ceil_alloc 5 13 _ (by norm_num) (by norm_num) (by norm_num)⟩

/-- Claim C7: an entity id already registered to a different active
transaction makes `add_to_trans` fail with `InTrans`, leaving the manager —
in particular the registration map — unchanged. -/
theorem c7_entity_in_one_trans (tm : TxMgrSt) (id txid t2 : Nat)
    (ar : Except Error Unit)
    (hreg : tm.ents id = some t2) (hne : t2 ≠ txid) :
    add_to_trans tm id txid ar = (.error .inTrans, tm) := by
  unfold add_to_trans
  rw [hreg]
  simp [hne]

/-- Witness for C7: entity 1 is registered to transaction 5; adding it to
transaction 7 fails with `InTrans` and changes nothing. -/
theorem c7_entity_in_one_trans_witness :
    ({ txs := fun t => t == 7, ents := fun i => if i = 1 then some 5 else none,
       curTxid := some 7 : TxMgrSt }.ents 1 = some 5) ∧ (5 : Nat) ≠ 7 ∧
    add_to_trans
      { txs := fun t => t == 7, ents := fun i => if i = 1 then some 5 else none,
        curTxid := some 7 } 1 7 (.ok ()) =
      (.error .inTrans,
       { txs := fun t => t == 7, ents := fun i => if i = 1 then some 5 else none,
         curTxid := some 7 }) :=
  ⟨rfl, by norm_num,
   c7_entity_in_one_trans _ 1 7 5 (.ok ()) rfl (by norm_num)⟩

/-- Claim C5: whatever the outcome of the commit steps, `commit_trans`
returns exactly that outcome — a commit failure falls through to abort and
the abort outcome (`ar`) never alters the returned error — and in all cases
the transaction is removed from the transaction map, every entity
registration to it is dropped, and the thread-local txid is cleared. -/
theorem c5_commit_error_propagation (tm : TxMgrSt) (txid : Nat)
    (cr ar : Except Error Unit) :
    (commit_trans tm txid cr ar).1 = cr ∧
    (commit_trans tm txid cr ar).2.txs txid = false ∧
    (∀ id t, (commit_trans tm txid cr ar).2.ents id = some t → t ≠ txid) ∧
    (commit_trans tm txid cr ar).2.curTxid = none := by
  cases cr with
  | ok u =>
    cases u
    exact ⟨rfl, by simp [commit_trans, remove_trans],
           fun id t h => remove_trans_ents tm txid id t h, rfl⟩
  | error e =>
    exact ⟨rfl, by simp [commit_trans, abort_trans, remove_trans],
           fun id t h => remove_trans_ents tm txid id t h, rfl⟩

/-- Claim C8: a second opener of an already locked volume fails with
`Opened` and acquires nothing; an unlocked volume is locked by
exclusive-create, and once the holder drops the storage (removing the lock
file) a subsequent open succeeds. -/
theorem c8_single_opener (locks : List Nat) (vid : Nat) :
    (vid ∈ locks → lock_storage locks vid = (.error .opened, locks)) ∧
    (vid ∉ locks →
      lock_storage locks vid = (.ok (), vid :: locks) ∧
      lock_storage (drop_storage (vid :: locks) vid) vid
        = (.ok (), vid :: locks)) := by
  constructor
  · intro hmem
    simp [lock_storage, hmem]
  · intro hnot
    have hdrop : drop_storage (vid :: locks) vid = locks := by
      simp [drop_storage]
    rw [hdrop]
    exact ⟨by simp [lock_storage, hnot], by simp [lock_storage, hnot]⟩

/-- Witness for C8: volume 5 locked in `[5, 9]` is rejected with `Opened`;
locking 5 in `[9]` succeeds and succeeds again after a drop. -/
theorem c8_single_opener_witness :
    lock_storage [5, 9] 5 = (.error .opened, [5, 9]) ∧
    (lock_storage [9] 5 = (.ok (), [5, 9]) ∧
     lock_storage (drop_storage [5, 9] 5) 5 = (.ok (), [5, 9])) :=
  ⟨(c8_single_opener [5, 9] 5).1 (by norm_num),
   (c8_single_opener [9] 5).2 (by norm_num)⟩

/-- Claim C9: on an existing entity, a write whose offset is neither 0 nor
the entity's current byte length trips the `assert_eq!(offset,
curr_space.len())` guard of the append path, and even at the correct
offset the `assert_eq!(txid, curr_space.txid)` guard traps when the space
belongs to another transaction. -/
theorem c9_write_offset_traps (fs : FileStorage) (sess : Session)
    (cs : Space) (id offset txid : Nat) (buf : List Nat)
    (hs : fs.sessions txid = some sess)
    (hc : currentSpace fs sess id = some cs)
    (h0 : offset ≠ 0) :
    (offset ≠ cs.byte_len →
      fs.write id offset buf txid = .error .assertFail) ∧
    (offset = cs.byte_len → txid ≠ cs.txid →
      fs.write id offset buf txid = .error .assertFail) := by
  constructor
  · intro h1
    simp [FileStorage.write, hs, hc, h0, h1]
  · intro h1 h2
    subst h1
    simp [FileStorage.write, hs, hc, h0, h2]

/-- Concrete space for the C9 witness: 3 bytes committed by transaction 5. -/
def spaceC9w : Space :=
  { txid := 5, spans := [{ begin := 0, end_ := 1, offset := 0 }],
    byte_len := 3 }

/-- Live session of transaction 7 for the C9 witness. -/
def sessC9w : Session :=
  { seq := 0, txid := 7, status := .started, wmark := 10,
    emap := fun _ => none, deleted := [], recycle := [] }

/-- File storage for the C9 witness. -/
def fsC9w : FileStorage :=
  { seq := 1,
    emap := fun i => if i = 1 then some spaceC9w else none,
    sessions := fun t => if t = 7 then some sessC9w else none,
    snapshots := [], disk := fun _ => 0, freePool := [],
    emapFiles := fun _ => false, snapshotFiles := fun _ => false,
    sessionFiles := fun t => if t = 7 then some .started else none }

/-- Witness for C9: entity 1 holds 3 bytes committed by transaction 5;
inside live transaction 7 a write at offset 2 traps, and a write at the
correct offset 3 still traps because the space belongs to transaction 5. -/
theorem c9_write_offset_traps_witness :
    (fsC9w.sessions 7 = some sessC9w) ∧
    (currentSpace fsC9w sessC9w 1 = some spaceC9w) ∧
    (2 : Nat) ≠ 0 ∧
    (((2 : Nat) ≠ spaceC9w.byte_len →
       fsC9w.write 1 2 [9, 9] 7 = .error .assertFail) ∧
     ((2 : Nat) = spaceC9w.byte_len → (7 : Nat) ≠ spaceC9w.txid →
       fsC9w.write 1 2 [9, 9] 7 = .error .assertFail)) :=
  ⟨rfl, rfl, by norm_num,
   c9_write_offset_traps fsC9w sessC9w spaceC9w 1 2 7 [9, 9] rfl rfl
     (by norm_num)⟩

/-- Concrete counterexample state for C2: entity 1 was committed by
transaction 5 with 3 bytes; transaction 7 is live with an empty overlay. -/
def spaceC2 : Space :=
  { txid := 5, spans := [{ begin := 0, end_ := 1, offset := 0 }],
    byte_len := 3 }

/-- Live session of transaction 7 for the C2 counterexample. -/
def sessC2 : Session :=
  { seq := 0, txid := 7, status := .started, wmark := 10,
    emap := fun _ => none, deleted := [], recycle := [] }

/-- File storage for the C2 counterexample. -/
def fsC2 : FileStorage :=
  { seq := 1,
    emap := fun i => if i = 1 then some spaceC2 else none,
    sessions := fun t => if t = 7 then some sessC2 else none,
    snapshots := [], disk := fun _ => 0, freePool := [],
    emapFiles := fun _ => false, snapshotFiles := fun _ => false,
    sessionFiles := fun t => if t = 7 then some .started else none }

/-- Counterexample to C2 as stated: entity 1 has an existing `Space`
(`byte_len = 3`, owned by transaction 5) and transaction 7 is live, yet the
write at the non-zero offset 3 — exactly the current `byte_len` — does not
append and does not return the buffer length: it traps on
`assert_eq!(txid, curr_space.txid)` because the space belongs to a
different transaction. -/
theorem c2_counterexample :
    fsC2.write 1 3 [9, 9] 7 = .error .assertFail := rfl

/-- Claim C2 (amended): with a live session and an existing `Space` for the
entity, `write` with `offset == 0` pushes the prior space onto the session
recycle list and records a fresh space of the buffer's length in the
overlay emap, returning the buffer length; `write` at a non-zero offset
equal to the current `byte_len` appends — growing the same span list and
adding the buffer length to `byte_len` — provided the existing space was
written by the same transaction (`cs.txid = txid`; otherwise the call traps
on an assertion, see the counterexample). -/
theorem c2_write_modes (fs : FileStorage) (sess : Session) (cs : Space)
    (id txid : Nat) (buf : List Nat)
    (hs : fs.sessions txid = some sess)
    (hc : currentSpace fs sess id = some cs) :
    (∃ fs1 sess3 sp,
      fs.write id 0 buf txid = .ok (buf.length, fs1) ∧
      fs1.sessions txid = some sess3 ∧
      sess3.recycle = sess.recycle ++ [cs] ∧
      sess3.emap id = some sp ∧ sp.byte_len = buf.length) ∧
    (∀ offset, offset = cs.byte_len → offset ≠ 0 → cs.txid = txid →
      ∃ fs1 sess3 sp tail,
        fs.write id offset buf txid = .ok (buf.length, fs1) ∧
        fs1.sessions txid = some sess3 ∧
        sess3.emap id = some sp ∧
        sp.spans = cs.spans ++ tail ∧
        sp.byte_len = cs.byte_len + buf.length) := by
  constructor
  · set cnt := align_ceil buf.length BLK_SIZE / BLK_SIZE with hcnt
    set spF : Space :=
      { txid := sess.txid,
        spans := [{ begin := sess.wmark, end_ := sess.wmark + cnt,
                    offset := 0 }],
        byte_len := buf.length } with hspF
    set sess3F : Session :=
      { sess with
        recycle := sess.recycle ++ [cs],
        wmark := sess.wmark + cnt,
        emap := fun k => if k = id then some spF else sess.emap k }
      with hsess3F
    refine ⟨{ fs with
              disk := secWrite fs.disk buf spF 0,
              sessions := fun t => if t = txid then some sess3F
                                   else fs.sessions t },
            sess3F, spF, ?_, by simp, by simp [hsess3F], ?_, by simp [hspF]⟩
    · simp [FileStorage.write, hs, hc, Session.alloc, hspF, hsess3F]
    · simp [hsess3F]
  · intro offset h1 h0 htx
    subst h1
    subst htx
    by_cases hsp : cs.byte_len + buf.length ≤ align_ceil cs.byte_len BLK_SIZE
    · set spF : Space := { cs with byte_len := cs.byte_len + buf.length }
        with hspF
      set sess3F : Session :=
        { sess with
          emap := fun k => if k = id then some spF else sess.emap k }
        with hsess3F
      refine ⟨{ fs with
                disk := secWrite fs.disk buf spF cs.byte_len,
                sessions := fun t => if t = cs.txid then some sess3F
                                     else fs.sessions t },
              sess3F, spF, [], ?_, by simp, ?_, by simp [hspF], by simp [hspF]⟩
      · simp [FileStorage.write, hs, hc, h0, hsp, hspF, hsess3F]
      · simp [hsess3F]
    · set alignLen := align_ceil cs.byte_len BLK_SIZE - cs.byte_len
        with halignLen
      set cnt := align_ceil (buf.length - alignLen) BLK_SIZE / BLK_SIZE
        with hcnt
      set tailF : List Span :=
        [{ begin := sess.wmark, end_ := sess.wmark + cnt, offset := 0 }]
        with htailF
      set spF : Space :=
        { cs with
          spans := cs.spans ++ tailF,
          byte_len := cs.byte_len + alignLen + (buf.length - alignLen) }
        with hspF
      set sess3F : Session :=
        { sess with
          wmark := sess.wmark + cnt,
          emap := fun k => if k = id then some spF else sess.emap k }
        with hsess3F
      refine ⟨{ fs with
                disk := secWrite fs.disk buf spF cs.byte_len,
                sessions := fun t => if t = cs.txid then some sess3F
                                     else fs.sessions t },
              sess3F, spF, tailF, ?_, by simp, ?_, by simp [hspF], ?_⟩
      · simp [FileStorage.write, hs, hc, h0, hsp, Session.alloc,
              hspF, hsess3F, htailF, hcnt, halignLen]
      · simp [hsess3F]
      · simp only [hspF]
        omega

/-- Concrete space for the C2 witness: entity 1 holds 3 bytes written by
the live transaction 7 itself. -/
def spaceC2w : Space :=
  { txid := 7, spans := [{ begin := 3, end_ := 4, offset := 0 }],
    byte_len := 3 }

/-- Live session of transaction 7 for the C2 witness, with entity 1 in its
overlay emap. -/
def sessC2w : Session :=
  { seq := 0, txid := 7, status := .started, wmark := 10,
    emap := fun i => if i = 1 then some spaceC2w else none, deleted := [],
    recycle := [] }

/-- File storage for the C2 witness. -/
def fsC2w : FileStorage :=
  { seq := 1, emap := fun _ => none,
    sessions := fun t => if t = 7 then some sessC2w else none,
    snapshots := [], disk := fun _ => 0, freePool := [],
    emapFiles := fun _ => false, snapshotFiles := fun _ => false,
    sessionFiles := fun t => if t = 7 then some .started else none }

/-- Witness for the amended C2 on a concrete storage: transaction 7 is live
and entity 1 has an existing space owned by transaction 7. -/
theorem c2_write_modes_witness :
    (fsC2w.sessions 7 = some sessC2w) ∧
    (currentSpace fsC2w sessC2w 1 = some spaceC2w) ∧
    ((∃ fs1 sess3 sp,
        fsC2w.write 1 0 [9, 9] 7 = .ok (([9, 9] : List Nat).length, fs1) ∧
        fs1.sessions 7 = some sess3 ∧
        sess3.recycle = sessC2w.recycle ++ [spaceC2w] ∧
        sess3.emap 1 = some sp ∧ sp.byte_len = ([9, 9] : List Nat).length) ∧
     (∀ offset, offset = spaceC2w.byte_len → offset ≠ 0 →
        spaceC2w.txid = 7 →
        ∃ fs1 sess3 sp tail,
          fsC2w.write 1 offset [9, 9] 7 =
            .ok (([9, 9] : List Nat).length, fs1) ∧
          fs1.sessions 7 = some sess3 ∧
          sess3.emap 1 = some sp ∧
          sp.spans = spaceC2w.spans ++ tail ∧
          sp.byte_len = spaceC2w.byte_len + ([9, 9] : List Nat).length)) :=
  ⟨rfl, rfl, c2_write_modes fsC2w sessC2w spaceC2w 1 7 [9, 9] rfl rfl⟩

/-- Claim C3: `read` with the empty txid consults only the base emap — the
session map is irrelevant — while a live txid consults the session overlay
emap first and falls back to the base emap only on an overlay miss; when
neither map holds the entity the read fails with the not-found `NoEntity`
error. -/
theorem c3_read_consultation_order (fs : FileStorage) (sess : Session)
    (id offset bufLen txid : Nat) :
    ((∀ other : Nat → Option Session,
        FileStorage.read { fs with sessions := other } id offset bufLen 0
          = fs.read id offset bufLen 0) ∧
     (∀ sp, fs.emap id = some sp →
        fs.read id offset bufLen 0 = .ok (secRead fs.disk sp offset bufLen)) ∧
     (fs.emap id = none → fs.read id offset bufLen 0 = .error .noEntity)) ∧
    (txid ≠ 0 → fs.sessions txid = some sess →
      ((∀ sp, sess.emap id = some sp →
          fs.read id offset bufLen txid
            = .ok (secRead fs.disk sp offset bufLen)) ∧
       (sess.emap id = none →
         ((∀ sp, fs.emap id = some sp →
             fs.read id offset bufLen txid
               = .ok (secRead fs.disk sp offset bufLen)) ∧
          (fs.emap id = none →
            fs.read id offset bufLen txid = .error .noEntity))))) := by
  refine ⟨⟨?_, ?_, ?_⟩, ?_⟩
  · intro other
    simp [FileStorage.read, FileStorage.readBase]
  · intro sp hsp
    simp [FileStorage.read, FileStorage.readBase, hsp]
  · intro hnone
    simp [FileStorage.read, FileStorage.readBase, hnone]
  · intro ht hs
    refine ⟨?_, ?_⟩
    · intro sp hsp
      simp [FileStorage.read, ht, hs, hsp]
    · intro hmiss
      refine ⟨?_, ?_⟩
      · intro sp hsp
        simp [FileStorage.read, FileStorage.readBase, ht, hs, hmiss, hsp]
      · intro hnone
        simp [FileStorage.read, FileStorage.readBase, ht, hs, hmiss, hnone]

/-- Base space for the C3 witness: entity 2 lives only in the base emap. -/
def spaceC3w : Space :=
  { txid := 5, spans := [{ begin := 0, end_ := 1, offset := 0 }],
    byte_len := 4 }

/-- Overlay space for the C3 witness: entity 1 lives in the overlay of the
live transaction 7. -/
def spaceC3w2 : Space :=
  { txid := 7, spans := [{ begin := 1, end_ := 2, offset := 0 }],
    byte_len := 2 }

/-- Live session for the C3 witness. -/
def sessC3w : Session :=
  { seq := 1, txid := 7, status := .started, wmark := 9,
    emap := fun i => if i = 1 then some spaceC3w2 else none, deleted := [],
    recycle := [] }

/-- File storage for the C3 witness. -/
def fsC3w : FileStorage :=
  { seq := 2, emap := fun i => if i = 2 then some spaceC3w else none,
    sessions := fun t => if t = 7 then some sessC3w else none,
    snapshots := [], disk := fun _ => 0, freePool := [],
    emapFiles := fun _ => false, snapshotFiles := fun _ => false,
    sessionFiles := fun t => if t = 7 then some .started else none }

/-- Witness for C3 at a concrete storage with a base-only entity 2, an
overlay entity 1 and the live transaction 7. -/
theorem c3_read_consultation_order_witness :
    ((∀ other : Nat → Option Session,
        FileStorage.read { fsC3w with sessions := other } 2 0 4 0
          = fsC3w.read 2 0 4 0) ∧
     (∀ sp, fsC3w.emap 2 = some sp →
        fsC3w.read 2 0 4 0 = .ok (secRead fsC3w.disk sp 0 4)) ∧
     (fsC3w.emap 2 = none → fsC3w.read 2 0 4 0 = .error .noEntity)) ∧
    ((7 : Nat) ≠ 0 → fsC3w.sessions 7 = some sessC3w →
      ((∀ sp, sessC3w.emap 2 = some sp →
          fsC3w.read 2 0 4 7 = .ok (secRead fsC3w.disk sp 0 4)) ∧
       (sessC3w.emap 2 = none →
         ((∀ sp, fsC3w.emap 2 = some sp →
             fsC3w.read 2 0 4 7 = .ok (secRead fsC3w.disk sp 0 4)) ∧
          (fsC3w.emap 2 = none →
            fsC3w.read 2 0 4 7 = .error .noEntity))))) :=
  c3_read_consultation_order fsC3w sessC3w 2 0 4 7

/-- Addresses not in the write list are untouched by `writeBytes`. -/
theorem writeBytes_not_mem (disk : Nat → Nat) (addrs vs : List Nat)
    (x : Nat) (hx : x ∉ addrs) : writeBytes disk addrs vs x = disk x := by
  induction addrs generalizing disk vs with
  | nil => cases vs <;> rfl
  | cons a rest ih =>
    cases vs with
    | nil => rfl
    | cons v vs =>
      have hxr : x ∉ rest := fun h => hx (List.mem_cons_of_mem a h)
      have hxa : x ≠ a := fun h => hx (h ▸ List.mem_cons_self a rest)
      calc writeBytes disk (a :: rest) (v :: vs) x
          = writeBytes (fun y => if y = a then v else disk y) rest vs x := rfl
        _ = (fun y => if y = a then v else disk y) x := ih _ _ hxr
        _ = disk x := by simp [hxa]

/-- Reading back a list of distinct addresses after writing values there
returns exactly those values. -/
theorem readBytes_writeBytes (disk : Nat → Nat) (addrs vs : List Nat)
    (hnd : addrs.Nodup) (hlen : addrs.length = vs.length) :
    readBytes (writeBytes disk addrs vs) addrs = vs := by
  induction addrs generalizing disk vs with
  | nil =>
    cases vs with
    | nil => rfl
    | cons v vs => simp at hlen
  | cons a rest ih =>
    cases vs with
    | nil => simp at hlen
    | cons v vs =>
      have hna : a ∉ rest := (List.nodup_cons.mp hnd).1
      have hnr : rest.Nodup := (List.nodup_cons.mp hnd).2
      have hl : rest.length = vs.length := by simpa using hlen
      show readBytes (writeBytes (fun y => if y = a then v else disk y)
             rest vs) (a :: rest) = v :: vs
      unfold readBytes
      rw [List.map_cons]
      congr 1
      · rw [writeBytes_not_mem _ _ _ _ hna]
        simp
      · exact ih _ _ hnr hl

/-- The addresses of the first `n` bytes of a fresh single-span space
starting at block `w` are `w * BLK_SIZE, …, w * BLK_SIZE + n - 1`. -/
theorem spaceAddrs_single (t w c m n : Nat) (hn : n ≤ c * BLK_SIZE) :
    spaceAddrs
      { txid := t,
        spans := [{ begin := w, end_ := w + c, offset := 0 }],
        byte_len := m } 0 n
      = (List.range n).map (fun i => w * BLK_SIZE + i) := by
  unfold spaceAddrs
  apply List.map_congr_left
  intro i hi
  have hilt : i < n := List.mem_range.mp hi
  have hcap : spanCap { begin := w, end_ := w + c, offset := 0 }
      = c * BLK_SIZE := by
    simp [spanCap]
  simp only [spansAddr, hcap]
  rw [if_pos (by omega)]
  omega

/-- Those addresses are pairwise distinct. -/
theorem spaceAddrs_single_nodup (t w c m n : Nat) (hn : n ≤ c * BLK_SIZE) :
    (spaceAddrs
      { txid := t,
        spans := [{ begin := w, end_ := w + c, offset := 0 }],
        byte_len := m } 0 n).Nodup := by
  rw [spaceAddrs_single t w c m n hn]
  exact (List.nodup_range n).map (fun a b h => by omega)

/-- `align_ceil` at `BLK_SIZE` covers the requested size (for sizes within
the 64-bit range), so a fresh allocation holds all its bytes. -/
theorem size_le_alloc_blocks (n : Nat) (hn : n < 2 ^ 64) :
    n ≤ align_ceil n BLK_SIZE / BLK_SIZE * BLK_SIZE := by
  rcases Nat.eq_zero_or_pos n with h0 | hpos
  · subst h0; simp
  · have h13 : BLK_SIZE = 2 ^ 13 := by norm_num [BLK_SIZE]
    obtain ⟨hdvd, hle, _⟩ :=
      align_ceil_bounds n 13 (by norm_num) hpos hn
    rw [h13]
    rw [Nat.div_mul_cancel (h13 ▸ hdvd)]
    exact h13 ▸ hle

/-- `recycleList` never touches the base emap. -/
theorem recycleList_emap (l : List Snapshot) (fs : FileStorage) :
    (recycleList l fs).2.emap = fs.emap := by
  induction l generalizing fs with
  | nil => rfl
  | cons s rest ih =>
    unfold recycleList
    by_cases h : rest.length + 1 > MAX_SNAPSHOT_CNT
    · rw [if_pos h]
      rw [ih]
      rfl
    · rw [if_neg h]

/-- `recycleList` never touches the device contents. -/
theorem recycleList_disk (l : List Snapshot) (fs : FileStorage) :
    (recycleList l fs).2.disk = fs.disk := by
  induction l generalizing fs with
  | nil => rfl
  | cons s rest ih =>
    unfold recycleList
    by_cases h : rest.length + 1 > MAX_SNAPSHOT_CNT
    · rw [if_pos h]
      rw [ih]
      rfl
    · rw [if_neg h]

/-- The committed storage's base emap is the merge of the session overlay
into the old base. -/
theorem commitBody_emap (fs : FileStorage) (sess : Session) (txid : Nat) :
    (commitBody fs sess txid).emap
      = emapMerge fs.emap sess.emap sess.deleted := by
  unfold commitBody FileStorage.recycle
  simp [recycleList_emap]

/-- Commit never changes the device contents. -/
theorem commitBody_disk (fs : FileStorage) (sess : Session) (txid : Nat) :
    (commitBody fs sess txid).disk = fs.disk := by
  unfold commitBody FileStorage.recycle
  simp [recycleList_disk]

/-- Claim C1: writing `b` at offset 0 inside a live transaction, committing
it, and reading the entity back with the empty txid returns exactly `b`,
for `|b| ≤ 10 · BLK_SIZE` (the entity must not have been deleted earlier in
the same transaction, or the commit-time merge would drop it). -/
theorem c1_write_commit_read (fs : FileStorage) (sess : Session)
    (id txid : Nat) (b : List Nat)
    (hs : fs.sessions txid = some sess)
    (ht : txid ≠ 0)
    (hd : id ∉ sess.deleted)
    (hb : b.length ≤ 10 * BLK_SIZE) :
    ∃ fs1 fs2,
      fs.write id 0 b txid = .ok (b.length, fs1) ∧
      fs1.commit txid = .ok fs2 ∧
      fs2.read id 0 b.length 0 = .ok b := by
  have hlt : b.length < 2 ^ 64 := by
    have : (10 : Nat) * BLK_SIZE < 2 ^ 64 := by norm_num [BLK_SIZE]
    omega
  set cnt := align_ceil b.length BLK_SIZE / BLK_SIZE with hcnt
  set spF : Space :=
    { txid := sess.txid,
      spans := [{ begin := sess.wmark, end_ := sess.wmark + cnt,
                  offset := 0 }],
      byte_len := b.length } with hspF
  have hcov : b.length ≤ cnt * BLK_SIZE := size_le_alloc_blocks b.length hlt
  have hround :
      secRead (secWrite fs.disk b spF 0) spF 0 b.length = b := by
    unfold secRead secWrite
    have hmin : min b.length (spF.byte_len - 0) = b.length := by
      simp [hspF]
    rw [hmin]
    apply readBytes_writeBytes
    · exact spaceAddrs_single_nodup _ _ _ _ _ hcov
    · simp [spaceAddrs]
  cases hc : currentSpace fs sess id with
  | some cs =>
    set sess3F : Session :=
      { sess with
        recycle := sess.recycle ++ [cs],
        wmark := sess.wmark + cnt,
        emap := fun k => if k = id then some spF else sess.emap k }
      with hsess3F
    set fs1F : FileStorage :=
      { fs with
        disk := secWrite fs.disk b spF 0,
        sessions := fun t => if t = txid then some sess3F
                             else fs.sessions t } with hfs1F
    have hw : fs.write id 0 b txid = .ok (b.length, fs1F) := by
      simp [FileStorage.write, hs, hc, Session.alloc, hspF, hsess3F, hfs1F]
    have hs1 : fs1F.sessions txid = some sess3F := by
      simp [hfs1F]
    refine ⟨fs1F, commitBody fs1F sess3F txid, hw, ?_, ?_⟩
    · simp [FileStorage.commit, hs1]
    · have hemap : (commitBody fs1F sess3F txid).emap id = some spF := by
        rw [commitBody_emap]
        simp [emapMerge, hsess3F, hd]
      have hdisk : (commitBody fs1F sess3F txid).disk
          = secWrite fs.disk b spF 0 := by
        rw [commitBody_disk]
      simp [FileStorage.read, FileStorage.readBase, hemap, hdisk, hround]
  | none =>
    set sess3F : Session :=
      { sess with
        wmark := sess.wmark + cnt,
        emap := fun k => if k = id then some spF else sess.emap k }
      with hsess3F
    set fs1F : FileStorage :=
      { fs with
        disk := secWrite fs.disk b spF 0,
        sessions := fun t => if t = txid then some sess3F
                             else fs.sessions t } with hfs1F
    have hw : fs.write id 0 b txid = .ok (b.length, fs1F) := by
      simp [FileStorage.write, hs, hc, Session.alloc, hspF, hsess3F, hfs1F]
    have hs1 : fs1F.sessions txid = some sess3F := by
      simp [hfs1F]
    refine ⟨fs1F, commitBody fs1F sess3F txid, hw, ?_, ?_⟩
    · simp [FileStorage.commit, hs1]
    · have hemap : (commitBody fs1F sess3F txid).emap id = some spF := by
        rw [commitBody_emap]
        simp [emapMerge, hsess3F, hd]
      have hdisk : (commitBody fs1F sess3F txid).disk
          = secWrite fs.disk b spF 0 := by
        rw [commitBody_disk]
      simp [FileStorage.read, FileStorage.readBase, hemap, hdisk, hround]

/-- Live session of transaction 7 for the C1 witness. -/
def sessC1w : Session :=
  { seq := 0, txid := 7, status := .started, wmark := 0,
    emap := fun _ => none, deleted := [], recycle := [] }

/-- File storage for the C1 witness. -/
def fsC1w : FileStorage :=
  { seq := 1, emap := fun _ => none,
    sessions := fun t => if t = 7 then some sessC1w else none,
    snapshots := [], disk := fun _ => 0, freePool := [],
    emapFiles := fun _ => false, snapshotFiles := fun _ => false,
    sessionFiles := fun t => if t = 7 then some .started else none }

/-- Witness for C1: write `[1, 2, 3]` to entity 1 in transaction 7, commit,
read it back with the empty txid. -/
theorem c1_write_commit_read_witness :
    (fsC1w.sessions 7 = some sessC1w) ∧ (7 : Nat) ≠ 0 ∧
    (1 : Nat) ∉ sessC1w.deleted ∧
    ([1, 2, 3] : List Nat).length ≤ 10 * BLK_SIZE ∧
    (∃ fs1 fs2,
      fsC1w.write 1 0 [1, 2, 3] 7
        = .ok (([1, 2, 3] : List Nat).length, fs1) ∧
      fs1.commit 7 = .ok fs2 ∧
      fs2.read 1 0 ([1, 2, 3] : List Nat).length 0 = .ok [1, 2, 3]) :=
  ⟨rfl, by norm_num, by simp [sessC1w], by norm_num [BLK_SIZE],
   c1_write_commit_read fsC1w sessC1w 1 7 [1, 2, 3] rfl (by norm_num)
     (by simp [sessC1w]) (by norm_num [BLK_SIZE])⟩

/-- Renaming a session status file cannot resurrect a deleted file. -/
theorem renameSessionFile_none (files : Nat → Option TxStatus)
    (txid : Nat) (st : TxStatus) (t : Nat) (h : files t = none) :
    renameSessionFile files txid st t = none := by
  unfold renameSessionFile
  by_cases ht : t = txid
  · rw [if_pos ht, h]
    rfl
  · rw [if_neg ht]
    exact h

/-- The recycle loop trims the snapshot deque to at most
`MAX_SNAPSHOT_CNT` entries. -/
theorem recycleList_length_le (l : List Snapshot) (fs : FileStorage) :
    (recycleList l fs).1.length ≤ MAX_SNAPSHOT_CNT := by
  induction l generalizing fs with
  | nil => simp [recycleList, MAX_SNAPSHOT_CNT]
  | cons s rest ih =>
    unfold recycleList
    by_cases h : rest.length + 1 > MAX_SNAPSHOT_CNT
    · rw [if_pos h]
      exact ih _
    · rw [if_neg h]
      simpa using Nat.le_of_not_lt h

/-- Retiring a snapshot returns its recycle spaces to the free pool and
deletes its emap, snapshot and session artifacts. -/
theorem retire_establishes (s : Snapshot) (fs : FileStorage) :
    (∀ sp ∈ s.recycle, sp ∈ (retireSnapshot s fs).freePool) ∧
    (retireSnapshot s fs).emapFiles s.txid = false ∧
    (retireSnapshot s fs).snapshotFiles s.txid = false ∧
    (retireSnapshot s fs).sessionFiles s.txid = none := by
  refine ⟨fun sp hsp => ?_, by simp [retireSnapshot], by simp [retireSnapshot],
          by simp [retireSnapshot]⟩
  simp only [retireSnapshot]
  exact List.mem_append_right _ hsp

/-- Retiring further snapshots preserves an earlier snapshot's retired
state: the free pool only grows and artifact deletion is never undone. -/
theorem retire_preserves (s0 s : Snapshot) (fs : FileStorage)
    (h : (∀ sp ∈ s0.recycle, sp ∈ fs.freePool) ∧
         fs.emapFiles s0.txid = false ∧
         fs.snapshotFiles s0.txid = false ∧
         fs.sessionFiles s0.txid = none) :
    (∀ sp ∈ s0.recycle, sp ∈ (retireSnapshot s fs).freePool) ∧
    (retireSnapshot s fs).emapFiles s0.txid = false ∧
    (retireSnapshot s fs).snapshotFiles s0.txid = false ∧
    (retireSnapshot s fs).sessionFiles s0.txid = none := by
  obtain ⟨h1, h2, h3, h4⟩ := h
  refine ⟨fun sp hsp => ?_, ?_, ?_, ?_⟩
  · simp only [retireSnapshot]
    exact List.mem_append_left _ (h1 sp hsp)
  · simp [retireSnapshot, h2]
  · simp [retireSnapshot, h3]
  · simp [retireSnapshot, h4]

/-- The whole recycle loop preserves a snapshot's retired state. -/
theorem recycleList_preserves (l : List Snapshot) (fs : FileStorage)
    (s0 : Snapshot)
    (h : (∀ sp ∈ s0.recycle, sp ∈ fs.freePool) ∧
         fs.emapFiles s0.txid = false ∧
         fs.snapshotFiles s0.txid = false ∧
         fs.sessionFiles s0.txid = none) :
    (∀ sp ∈ s0.recycle, sp ∈ (recycleList l fs).2.freePool) ∧
    (recycleList l fs).2.emapFiles s0.txid = false ∧
    (recycleList l fs).2.snapshotFiles s0.txid = false ∧
    (recycleList l fs).2.sessionFiles s0.txid = none := by
  induction l generalizing fs with
  | nil => exact h
  | cons s rest ih =>
    unfold recycleList
    by_cases hl : rest.length + 1 > MAX_SNAPSHOT_CNT
    · rw [if_pos hl]
      exact ih _ (retire_preserves s0 s fs h)
    · rw [if_neg hl]
      exact h

/-- Every snapshot dropped by the recycle loop ends retired: its recycle
spaces are in the free pool and its artifacts are deleted. -/
theorem recycleList_retired (l : List Snapshot) (fs : FileStorage)
    (s : Snapshot) (hmem : s ∈ l) (hout : s ∉ (recycleList l fs).1) :
    (∀ sp ∈ s.recycle, sp ∈ (recycleList l fs).2.freePool) ∧
    (recycleList l fs).2.emapFiles s.txid = false ∧
    (recycleList l fs).2.snapshotFiles s.txid = false ∧
    (recycleList l fs).2.sessionFiles s.txid = none := by
  induction l generalizing fs with
  | nil => cases hmem
  | cons a rest ih =>
    by_cases hl : rest.length + 1 > MAX_SNAPSHOT_CNT
    · have hred : recycleList (a :: rest) fs
          = recycleList rest (retireSnapshot a fs) := by
        rw [recycleList]
        rw [if_pos hl]
      rw [hred] at hout ⊢
      rcases List.mem_cons.mp hmem with rfl | hm2
      · by_cases hr : s ∈ rest
        · exact ih _ hr hout
        · exact recycleList_preserves rest _ s (retire_establishes s fs)
      · exact ih _ hm2 hout
    · have hred : recycleList (a :: rest) fs = (a :: rest, fs) := by
        rw [recycleList]
        rw [if_neg hl]
      rw [hred] at hout
      exact absurd hmem hout

/-- Claim C4: a successful commit leaves at most `MAX_SNAPSHOT_CNT = 2`
snapshots in the deque, and every snapshot pushed out (the oldest excess
ones) has been disposed: its recycle spaces are in the sector manager's
free pool and its emap, snapshot and session artifacts are deleted. -/
theorem c4_snapshot_retirement (fs : FileStorage) (sess : Session)
    (txid : Nat) (hs : fs.sessions txid = some sess) :
    ∃ fs2, fs.commit txid = .ok fs2 ∧
      fs2.snapshots.length ≤ MAX_SNAPSHOT_CNT ∧
      ∀ s ∈ fs.snapshots ++ [sess.take_snapshot], s ∉ fs2.snapshots →
        (∀ sp ∈ s.recycle, sp ∈ fs2.freePool) ∧
        fs2.emapFiles s.txid = false ∧
        fs2.snapshotFiles s.txid = false ∧
        fs2.sessionFiles s.txid = none := by
  refine ⟨commitBody fs sess txid, by simp [FileStorage.commit, hs], ?_, ?_⟩
  · show (recycleList (fs.snapshots ++ [sess.take_snapshot]) _).1.length
        ≤ MAX_SNAPSHOT_CNT
    exact recycleList_length_le _ _
  · intro s hmem hout
    have hret := recycleList_retired (fs.snapshots ++ [sess.take_snapshot])
      { fs with
        emap := emapMerge fs.emap sess.emap sess.deleted,
        emapFiles := fun t => if t = txid then true else fs.emapFiles t,
        snapshotFiles := fun t => if t = txid then true
                                  else fs.snapshotFiles t,
        snapshots := fs.snapshots ++ [sess.take_snapshot],
        sessionFiles := renameSessionFile
          (renameSessionFile fs.sessionFiles txid .prepare) txid
          .recycleSt }
      s hmem hout
    obtain ⟨h1, h2, h3, h4⟩ := hret
    exact ⟨h1, h2, h3, renameSessionFile_none _ _ _ _ h4⟩

/-- Recycled space of the oldest snapshot in the C4 witness. -/
def spaceC4w : Space :=
  { txid := 5, spans := [{ begin := 0, end_ := 1, offset := 0 }],
    byte_len := 8 }

/-- Oldest snapshot for the C4 witness. -/
def snapC4a : Snapshot := { seq := 1, txid := 5, wmark := 1,
                            recycle := [spaceC4w] }

/-- Second snapshot for the C4 witness. -/
def snapC4b : Snapshot := { seq := 2, txid := 6, wmark := 2, recycle := [] }

/-- Committing session for the C4 witness. -/
def sessC4w : Session :=
  { seq := 3, txid := 9, status := .started, wmark := 5,
    emap := fun _ => none, deleted := [], recycle := [] }

/-- File storage for the C4 witness: two retained snapshots and a live
session about to commit. -/
def fsC4w : FileStorage :=
  { seq := 4, emap := fun _ => none,
    sessions := fun t => if t = 9 then some sessC4w else none,
    snapshots := [snapC4a, snapC4b], disk := fun _ => 0, freePool := [],
    emapFiles := fun t => decide (t = 5 ∨ t = 6),
    snapshotFiles := fun t => decide (t = 5 ∨ t = 6),
    sessionFiles := fun t =>
      if t = 9 then some .started
      else if t = 5 ∨ t = 6 then some .committed else none }

/-- Witness for C4: committing transaction 9 on a storage holding two
snapshots retires the oldest one. -/
theorem c4_snapshot_retirement_witness :
    (fsC4w.sessions 9 = some sessC4w) ∧
    (∃ fs2, fsC4w.commit 9 = .ok fs2 ∧
      fs2.snapshots.length ≤ MAX_SNAPSHOT_CNT ∧
      ∀ s ∈ fsC4w.snapshots ++ [sessC4w.take_snapshot],
        s ∉ fs2.snapshots →
        (∀ sp ∈ s.recycle, sp ∈ fs2.freePool) ∧
        fs2.emapFiles s.txid = false ∧
        fs2.snapshotFiles s.txid = false ∧
        fs2.sessionFiles s.txid = none) :=
  ⟨rfl, c4_snapshot_retirement fsC4w sessC4w 9 rfl⟩

/-- The completed-count accumulated by the open scan. -/
theorem openScan_completed (l : List SessionHistItem) (i c u p : Nat) :
    (openScan l i (c, u, p)).1
      = c + (l.filter (fun h => h.is_completed)).length := by
  induction l generalizing i c u p with
  | nil => simp [openScan]
  | cons h rest ih =>
    cases hc : h.is_completed with
    | true =>
      simp [openScan, hc, ih]
      omega
    | false =>
      simp [openScan, hc, ih]

/-- The non-completed-count accumulated by the open scan. -/
theorem openScan_uncompleted (l : List SessionHistItem) (i c u p : Nat) :
    (openScan l i (c, u, p)).2.1
      = u + (l.filter (fun h => !h.is_completed)).length := by
  induction l generalizing i c u p with
  | nil => simp [openScan]
  | cons h rest ih =>
    cases hc : h.is_completed with
    | true => simp [openScan, hc, ih]
    | false =>
      simp [openScan, hc, ih]
      omega

/-- The tracked least non-completed position never exceeds its seed. -/
theorem openScan_pos_le (l : List SessionHistItem) (i c u p : Nat) :
    (openScan l i (c, u, p)).2.2 ≤ p := by
  induction l generalizing i c u p with
  | nil => simp [openScan]
  | cons h rest ih =>
    cases hc : h.is_completed with
    | true =>
      simp only [openScan, hc, if_pos]
      exact ih (i + 1) (c + 1) u p
    | false =>
      simp only [openScan, hc, if_true, Bool.false_eq_true, if_false]
      calc (openScan rest (i + 1) (c, u + 1, min i p)).2.2
          ≤ min i p := ih (i + 1) c (u + 1) (min i p)
        _ ≤ p := Nat.min_le_right i p

/-- The tracked position is a lower bound of every non-completed index. -/
theorem openScan_pos_le_idx (l : List SessionHistItem) (i c u p j : Nat)
    (hj : j < l.length) (hu : (l.get ⟨j, hj⟩).is_completed = false) :
    (openScan l i (c, u, p)).2.2 ≤ i + j := by
  induction l generalizing i c u p j with
  | nil => simp at hj
  | cons h rest ih =>
    cases j with
    | zero =>
      simp only [List.get] at hu
      simp only [openScan, hu, if_true, Bool.false_eq_true, if_false]
      calc (openScan rest (i + 1) (c, u + 1, min i p)).2.2
          ≤ min i p := openScan_pos_le rest (i + 1) c (u + 1) (min i p)
        _ ≤ i + 0 := by omega
    | succ j2 =>
      have hj2 : j2 < rest.length := by simpa using hj
      have hu2 : (rest.get ⟨j2, hj2⟩).is_completed = false := by
        simpa using hu
      cases hc : h.is_completed with
      | true =>
        simp only [openScan, hc, if_true, Bool.false_eq_true, if_false]
        have := ih (i + 1) (c + 1) u p j2 hj2 hu2
        omega
      | false =>
        simp only [openScan, hc, if_true, Bool.false_eq_true, if_false]
        have := ih (i + 1) c (u + 1) (min i p) j2 hj2 hu2
        omega

/-- The tracked position is either the seed or an actual non-completed
index. -/
theorem openScan_pos_cases (l : List SessionHistItem) (i c u p : Nat) :
    (openScan l i (c, u, p)).2.2 = p ∨
    ∃ j, ∃ hj : j < l.length,
      (l.get ⟨j, hj⟩).is_completed = false ∧
      (openScan l i (c, u, p)).2.2 = i + j := by
  induction l generalizing i c u p with
  | nil => left; simp [openScan]
  | cons h rest ih =>
    cases hc : h.is_completed with
    | true =>
      simp only [openScan, hc, if_true, Bool.false_eq_true, if_false]
      rcases ih (i + 1) (c + 1) u p with he | ⟨j2, hj2, hu2, he⟩
      · left; exact he
      · right
        refine ⟨j2 + 1, by simpa using Nat.succ_lt_succ hj2, by simpa using hu2, ?_⟩
        omega
    | false =>
      simp only [openScan, hc, if_true, Bool.false_eq_true, if_false]
      rcases ih (i + 1) c (u + 1) (min i p) with he | ⟨j2, hj2, hu2, he⟩
      · rcases Nat.le_total i p with hip | hpi
        · right
          refine ⟨0, by simp, by simpa using hc, ?_⟩
          omega
        · left
          omega
      · right
        refine ⟨j2 + 1, by simpa using Nat.succ_lt_succ hj2, by simpa using hu2, ?_⟩
        omega

/-- The scan flags a non-last position exactly when some non-completed
session sits before the last slot. -/
theorem openScan_pos_ne (hist : List SessionHistItem) :
    ((openScan hist 0 (0, 0, hist.length - 1)).2.2 ≠ hist.length - 1) ↔
    (∃ j, ∃ hj : j < hist.length,
      (hist.get ⟨j, hj⟩).is_completed = false ∧ j ≠ hist.length - 1) := by
  constructor
  · intro hne2
    rcases openScan_pos_cases hist 0 0 0 (hist.length - 1) with he | ⟨j, hj, hu, he⟩
    · exact absurd he hne2
    · exact ⟨j, hj, hu, by omega⟩
  · rintro ⟨j, hj, hu, hjne⟩
    have h1 := openScan_pos_le_idx hist 0 0 0 (hist.length - 1) j hj hu
    omega

/-- Counterexample to C6 as stated: the empty session history has no
completed (Committed or Dispose) session — the completed filter is empty —
yet `open` does not fail with `Corrupted`: it succeeds returning the empty
txid. -/
theorem c6_counterexample :
    open_check [] = Except.ok 0 ∧
    List.filter (fun h => h.is_completed) ([] : List SessionHistItem)
      = [] :=
  ⟨rfl, rfl⟩

/-- Claim C6 (amended): for a NON-EMPTY seq-sorted session history, `open`
fails with `Corrupted` exactly when the history is invalid — no completed
session, more than one non-completed session, or a non-completed session
that is not in the last position — and otherwise succeeds returning the
txid of the last completed session.  (An empty history opens successfully
with the empty txid, see the counterexample.) -/
theorem c6_open_corrupted_iff (hist : List SessionHistItem)
    (hne : hist ≠ []) :
    (open_check hist = .error .corrupted ↔
      ((∀ h ∈ hist, h.is_completed = false) ∨
       1 < (hist.filter (fun h => !h.is_completed)).length ∨
       (∃ j, ∃ hj : j < hist.length,
         (hist.get ⟨j, hj⟩).is_completed = false ∧
         j ≠ hist.length - 1))) ∧
    (open_check hist ≠ .error .corrupted →
      open_check hist = .ok (lastCompletedTxid hist)) := by
  have hE : hist.isEmpty = false := by
    cases hist with
    | nil => exact absurd rfl hne
    | cons a l => rfl
  have hgoal : open_check hist
      = (if (openScan hist 0 (0, 0, hist.length - 1)).1 = 0 ∨
            (openScan hist 0 (0, 0, hist.length - 1)).2.1 > 1 ∨
            (openScan hist 0 (0, 0, hist.length - 1)).2.2
              ≠ hist.length - 1
         then Except.error Error.corrupted
         else Except.ok (lastCompletedTxid hist)) := by
    unfold open_check
    rw [hE]
    exact rfl
  have h1 : (openScan hist 0 (0, 0, hist.length - 1)).1
      = (hist.filter (fun h => h.is_completed)).length := by
    simpa using openScan_completed hist 0 0 0 (hist.length - 1)
  have h2 : (openScan hist 0 (0, 0, hist.length - 1)).2.1
      = (hist.filter (fun h => !h.is_completed)).length := by
    simpa using openScan_uncompleted hist 0 0 0 (hist.length - 1)
  have hDiff : ((openScan hist 0 (0, 0, hist.length - 1)).1 = 0 ∨
      (openScan hist 0 (0, 0, hist.length - 1)).2.1 > 1 ∨
      (openScan hist 0 (0, 0, hist.length - 1)).2.2 ≠ hist.length - 1) ↔
      ((∀ h ∈ hist, h.is_completed = false) ∨
       1 < (hist.filter (fun h => !h.is_completed)).length ∨
       (∃ j, ∃ hj : j < hist.length,
         (hist.get ⟨j, hj⟩).is_completed = false ∧
         j ≠ hist.length - 1)) := by
    apply or_congr
    · rw [h1]
      rw [List.length_eq_zero]
      rw [List.filter_eq_nil_iff]
      simp [Bool.not_eq_true]
    · apply or_congr
      · rw [h2]
      · exact openScan_pos_ne hist
  rw [hgoal]
  by_cases hD : (openScan hist 0 (0, 0, hist.length - 1)).1 = 0 ∨
      (openScan hist 0 (0, 0, hist.length - 1)).2.1 > 1 ∨
      (openScan hist 0 (0, 0, hist.length - 1)).2.2 ≠ hist.length - 1
  · rw [if_pos hD]
    constructor
    · constructor
      · intro _
        exact hDiff.mp hD
      · intro _
        rfl
    · intro hne2
      exact absurd rfl hne2
  · rw [if_neg hD]
    constructor
    · constructor
      · intro hcon
        exact absurd hcon (by simp)
      · intro hspec
        exact absurd (hDiff.mpr hspec) hD
    · intro _
      rfl

/-- Witness history for C6: a committed session followed by one started
(non-completed) session in the last position — a valid history. -/
def histC6w : List SessionHistItem :=
  [{ seq := 1, txid := 5, status := .committed },
   { seq := 2, txid := 7, status := .started }]

/-- Witness for the amended C6 at the concrete two-entry history. -/
theorem c6_open_corrupted_iff_witness :
    histC6w ≠ [] ∧
    ((open_check histC6w = .error .corrupted ↔
       ((∀ h ∈ histC6w, h.is_completed = false) ∨
        1 < (histC6w.filter (fun h => !h.is_completed)).length ∨
        (∃ j, ∃ hj : j < histC6w.length,
          (histC6w.get ⟨j, hj⟩).is_completed = false ∧
          j ≠ histC6w.length - 1))) ∧
     (open_check histC6w ≠ .error .corrupted →
       open_check histC6w = .ok (lastCompletedTxid histC6w))) :=
  ⟨by simp [histC6w], c6_open_corrupted_iff histC6w (by simp [histC6w])⟩


/-- Transaction manager state for the C5 witness: transaction 4 is live
with entity 2 registered to it. -/
def tmC5w : TxMgrSt :=
  { txs := fun t => t == 4,
    ents := fun i => if i = 2 then some 4 else none,
    curTxid := some 4 }

/-- Witness for C5: committing transaction 4 fails with `Uncompleted` and
the abort itself fails with `NoTrans`; the original `Uncompleted` is
returned, the transaction and its registrations are gone and the thread
txid is cleared. -/
theorem c5_commit_error_propagation_witness :
    (commit_trans tmC5w 4 (.error .uncompleted) (.error .noTrans)).1
      = .error .uncompleted ∧
    (commit_trans tmC5w 4 (.error .uncompleted)
        (.error .noTrans)).2.txs 4 = false ∧
    (∀ id t,
      (commit_trans tmC5w 4 (.error .uncompleted)
          (.error .noTrans)).2.ents id = some t → t ≠ 4) ∧
    (commit_trans tmC5w 4 (.error .uncompleted)
        (.error .noTrans)).2.curTxid = none :=
  c5_commit_error_propagation tmC5w 4 (.error .uncompleted)
    (.error .noTrans)

end Zbox